import Mathlib

/-!
# Verification of the External Identity & Configuration Federation Engine

A shallow embedding, in Lean 4, of the core functions of the
`Eduneon-DE/documenso` repository's federation engine:

* the JWKS key-set cache (`getJwks` in
  `packages/lib/server-only/cockpit/validate-jwt.ts`),
* the JWT verifier (`validateAuthentikJwt`, same file),
* the token lifecycle manager (`refreshAccessToken` and
  `getUserAccessToken` in the cockpit client module of
  `packages/lib/server-only/cockpit`),
* the settings synchronizer (`syncCockpitConfigToOrganisation` and
  `syncOrganisationToCockpit` in the cockpit sync module of
  `packages/trpc/server/recipient-router`),
* the recipient-suggestion aggregator (`getRecipientSuggestions` in
  `packages/lib/server-only/recipient/get-recipient-suggestions.ts`).

External effects (HTTP fetches, the OAuth client, the Prisma store) are
modelled as explicit inputs/outputs: every network outcome is a parameter
and every store mutation is part of the returned value, so each TypeScript
function becomes a total Lean function over those inputs.
-/

namespace Documenso

/-- JavaScript truthiness of a nullable/optional string: `undefined`,
`null` and the empty string are falsy. -/
def truthyS : Option String → Bool
  | none => false
  | some s => !(s == "")

/-- JavaScript `a || b` on two nullable strings: yields `a` when `a` is
truthy, otherwise `b`. -/
def jsOrOpt (a b : Option String) : Option String :=
  if truthyS a then a else b

/-! ## Key Set Cache

`getJwks` from `packages/lib/server-only/cockpit/validate-jwt.ts`. The
module-level mutable state (`cachedJwks`, `jwksLastFetched`) is passed in
and returned explicitly; the opaque `jose.JWTVerifyGetKey` value is
modelled as a `Nat` identifier so that "serves the same cached value" is
expressible. -/

/-- The module-level cache state of `validate-jwt.ts`: `cachedJwks`
(opaque key-set object, `none` = `null`) and `jwksLastFetched` in epoch
milliseconds. -/
structure JwksCacheState where
  cachedJwks : Option Nat
  jwksLastFetched : Int
  deriving DecidableEq, Repr

/-- Constant `JWKS_CACHE_TTL`, `60 * 60 * 1000` (one hour, in milliseconds). -/
def JWKS_CACHE_TTL : Int := 60 * 60 * 1000

/-- Function `getJwks` from `validate-jwt.ts`. `wellKnownUrl` is the
`NEXT_PRIVATE_OIDC_WELL_KNOWN` environment value; `now` is `Date.now()`;
`fetchOutcome` is the discovery-document fetch: `none` means the fetch
(or URL construction) threw, `some uri` means it returned a config whose
`jwks_uri` field is `uri`; `newKeys` is the fresh key set that
`jose.createRemoteJWKSet` would build. Returns the key set handed to the
caller and the cache state after the call. -/
def getJwks (wellKnownUrl : Option String) (st : JwksCacheState) (now : Int)
    (fetchOutcome : Option (Option String)) (newKeys : Nat) :
    Option Nat × JwksCacheState :=
  if !truthyS wellKnownUrl then (none, st)
  else if st.cachedJwks.isSome ∧ now - st.jwksLastFetched < JWKS_CACHE_TTL then
    (st.cachedJwks, st)
  else
    match fetchOutcome with
    | none => (none, st)
    | some jwksUri =>
      if !truthyS jwksUri then (none, st)
      else (some newKeys, { cachedJwks := some newKeys, jwksLastFetched := now })

/-! ## JWT Verifier

`validateAuthentikJwt` from `validate-jwt.ts`. `jose.jwtVerify` is an
external call: its outcome is an input (`none` = it threw, covering
malformed tokens, bad signatures and expired tokens). A JWT claim value
may be a non-string, which the code guards against with
`typeof payload.email !== 'string'`. -/

/-- A JSON claim value as far as the `email` guard distinguishes it:
either a string or some other JSON value. -/
inductive ClaimValue where
  | jstr (s : String)
  | jother
  deriving DecidableEq, Repr

/-- The payload of a successfully verified JWT as produced by
`jose.jwtVerify`, restricted to the claims `validateAuthentikJwt`
inspects or forwards. -/
structure JoseJwtPayload where
  sub : Option String
  email : Option ClaimValue
  name : Option String
  preferred_username : Option String
  exp : Option Int
  deriving DecidableEq, Repr

/-- The `JwtPayload` interface returned by `validateAuthentikJwt`:
`email` is a (checked non-empty) string; the other claims are forwarded
as-is. -/
structure JwtPayload where
  sub : Option String
  email : String
  name : Option String
  preferred_username : Option String
  exp : Option Int
  deriving DecidableEq, Repr

/-- Returns `true` when the `email` claim fails the source's guard
`!payload.email || typeof payload.email !== 'string'`: the claim is
absent, a non-string, or the empty string. -/
def emailClaimMissing (p : JoseJwtPayload) : Bool :=
  match p.email with
  | some (.jstr s) => s == ""
  | _ => true

/-- Function `validateAuthentikJwt` from `validate-jwt.ts`: `jwks` is the result
of `getJwks` (collapsed to its returned key set) and `verifyOutcome` the
result of `jose.jwtVerify` against those keys (`none` = verification
threw). The enclosing `try`/`catch` maps every throw to `null`, so the
embedding is a total function into `Option`. -/
def validateAuthentikJwt (jwks : Option Nat)
    (verifyOutcome : Option JoseJwtPayload) : Option JwtPayload :=
  match jwks with
  | none => none
  | some _ =>
    match verifyOutcome with
    | none => none
    | some payload =>
      match payload.email with
      | some (.jstr s) =>
        if s == "" then none
        else
          some { sub := payload.sub, email := s, name := payload.name,
                 preferred_username := payload.preferred_username, exp := payload.exp }
      | _ => none

/-- Splits a character list at every occurrence of the separator
(an executable counterpart of string splitting, used by `isValidEmail`). -/
def splitOnChar (c : Char) : List Char → List (List Char)
  | [] => [[]]
  | x :: xs =>
    match splitOnChar c xs, decide (x = c) with
    | r, true => [] :: r
    | [], false => [[x]]
    | y :: ys, false => (x :: y) :: ys

/-- Models the external `zod` email validator used by `isValidEmail` in
`get-recipient-suggestions.ts` (`z.string().email()`): an executable
approximation requiring a single `@` with a non-empty local part and a
dotted domain that neither starts nor ends with a dot. -/
def isValidEmail (email : String) : Bool :=
  match splitOnChar '@' email.toList with
  | [l, d] =>
    !l.isEmpty && d.contains '.' && !(d.head? == some '.') && !(d.getLast? == some '.')
  | _ => false

/-- Models JavaScript's `String.prototype.toLowerCase` (as used for the
case-insensitive email keys of the suggestion merge) executably:
character-wise lowercasing. -/
def lowerString (s : String) : String :=
  String.mk (s.toList.map Char.toLower)

/-! ## Token lifecycle manager

From the cockpit client module of `packages/lib/server-only/cockpit`.
The Prisma `Account`
row selected by `getUserAccessToken` carries `id`, `access_token`,
`refresh_token` and `expires_at`; the OAuth token-endpoint response is an
opaque network outcome. -/

/-- The Prisma `Account` row slice read and written by the token
lifecycle manager. -/
structure Account where
  id : String
  access_token : Option String
  refresh_token : Option String
  expires_at : Option Int
  deriving DecidableEq, Repr

/-- A successful response of the provider's token endpoint as observed by
`refreshAccessToken`: `tokens.accessToken()`, `tokens.accessTokenExpiresAt()`
in epoch milliseconds, and `tokens.refreshToken()` when
`tokens.hasRefreshToken()`. -/
structure TokenResponse where
  accessToken : String
  expiresAtMs : Int
  refreshToken : Option String
  deriving DecidableEq, Repr

/-- Constant `TOKEN_REFRESH_BUFFER_SECONDS`, `5 * 60`, from the cockpit client module. -/
def TOKEN_REFRESH_BUFFER_SECONDS : Int := 5 * 60

/-- Function `refreshAccessToken` from the cockpit client module: `oidcConfigured` models the
presence of client id, client secret and a reachable token endpoint, and
`outcome` is the token-endpoint call's result (`none` = the OAuth call
threw). Returns the value returned to the caller together with the stored
account row after the call (`prisma.account.update` on success; untouched
otherwise). `Math.floor(newExpiresAt.getTime() / 1000)` is floor division;
the refresh token is overwritten only when the response carries a truthy
rotated refresh token. -/
def refreshAccessToken (account : Account) (oidcConfigured : Bool)
    (outcome : Option TokenResponse) : Option String × Account :=
  if !oidcConfigured then (none, account)
  else
    match outcome with
    | none => (none, account)
    | some t =>
      let newRefreshToken := t.refreshToken
      (some t.accessToken,
        { account with
            access_token := some t.accessToken
            expires_at := some (Int.fdiv t.expiresAtMs 1000)
            refresh_token :=
              if truthyS newRefreshToken then newRefreshToken else account.refresh_token })

/-- The observable outcome of one `getUserAccessToken` call: the returned
token, the stored account row after the call, and whether a refresh
(hence any network traffic) was attempted. -/
structure TokenFetchResult where
  token : Option String
  account : Option Account
  refreshAttempted : Bool
  deriving DecidableEq, Repr

/-- Function `getUserAccessToken` from the cockpit client module: `account` is the row found by
`prisma.account.findFirst` (`none` = no row), `now` is
`Math.floor(Date.now() / 1000)`, and `oidcConfigured`/`refreshOutcome`
parameterize the refresh call as in `refreshAccessToken`. The near-expiry
test is `expiresAt > 0 && expiresAt - TOKEN_REFRESH_BUFFER_SECONDS < now`
with `expiresAt = account.expires_at ?? 0`; on a failed refresh the stale
access token is returned. -/
def getUserAccessToken (account : Option Account) (now : Int)
    (oidcConfigured : Bool) (refreshOutcome : Option TokenResponse) :
    TokenFetchResult :=
  match account with
  | none => ⟨none, none, false⟩
  | some acct =>
    if !truthyS acct.access_token then ⟨none, some acct, false⟩
    else
      let expiresAt := acct.expires_at.getD 0
      if expiresAt > 0 ∧ expiresAt - TOKEN_REFRESH_BUFFER_SECONDS < now then
        if truthyS acct.refresh_token then
          match refreshAccessToken acct oidcConfigured refreshOutcome with
          | (some newTok, acct') => ⟨some newTok, some acct', true⟩
          | (none, acct') => ⟨acct.access_token, some acct', true⟩
        else ⟨acct.access_token, some acct, false⟩
      else ⟨acct.access_token, some acct, false⟩

/-! ## Settings Synchronizer

`syncCockpitConfigToOrganisation` and `syncOrganisationToCockpit` from
the cockpit sync module. The remote fetches (`getDocumensoSettings`,
`getUserPreferences`, `getCurrentUser`) and the local Prisma lookups are
inputs; the single `prisma.organisationGlobalSettings.update` is the
returned settings row. -/

/-- Documenso's `DocumentVisibility` Prisma enum. -/
inductive DocumentVisibility where
  | EVERYONE
  | MANAGER_AND_ABOVE
  | ADMIN
  deriving DecidableEq, Repr

/-- Function `mapDocumentVisibility` from the sync module: maps Cockpit's string
values onto the enum; falsy input and unknown strings yield `undefined`. -/
def mapDocumentVisibility (visibility : Option String) : Option DocumentVisibility :=
  match visibility with
  | none => none
  | some s =>
    if s == "" then none
    else if s == "EVERYONE" then some .EVERYONE
    else if s == "MANAGER_AND_ABOVE" then some .MANAGER_AND_ABOVE
    else if s == "ADMIN" then some .ADMIN
    else none

/-- Model of `DocumensoConfigMeta.documentDefaults` from `cockpit/types.ts`; each
field is optional (`none` = `undefined`). -/
structure DocumentDefaults where
  language : Option String := none
  timezone : Option String := none
  dateFormat : Option String := none
  documentVisibility : Option String := none
  deriving DecidableEq, Repr

/-- Model of `DocumensoConfigMeta.signatureSettings` from `cockpit/types.ts`. -/
structure SignatureSettings where
  typedSignatureEnabled : Option Bool := none
  uploadSignatureEnabled : Option Bool := none
  drawSignatureEnabled : Option Bool := none
  deriving DecidableEq, Repr

/-- Model of `DocumensoConfigMeta.certificateSettings` from `cockpit/types.ts`. -/
structure CertificateSettings where
  includeSenderDetails : Option Bool := none
  includeSigningCertificate : Option Bool := none
  includeAuditLog : Option Bool := none
  deriving DecidableEq, Repr

/-- Model of `DocumensoConfigMeta.emailSettings` from `cockpit/types.ts`. -/
structure EmailSettings where
  replyToEmail : Option String := none
  deriving DecidableEq, Repr

/-- Model of `DocumensoConfigMeta.branding` from `cockpit/types.ts`. -/
structure BrandingSettings where
  enabled : Option Bool := none
  logo : Option String := none
  companyName : Option String := none
  deriving DecidableEq, Repr

/-- Model of `DocumensoConfigMeta` from `cockpit/types.ts`: the settings bundle
stored in Cockpit's config record; every section is optional. -/
structure DocumensoConfigMeta where
  branding : Option BrandingSettings := none
  documentDefaults : Option DocumentDefaults := none
  signatureSettings : Option SignatureSettings := none
  certificateSettings : Option CertificateSettings := none
  emailSettings : Option EmailSettings := none
  deriving DecidableEq, Repr

/-- Model of `CockpitAttachment` (the `logo` of an organization): `url` and `link`
are optional. -/
structure CockpitAttachment where
  url : Option String := none
  link : Option String := none
  deriving DecidableEq, Repr

/-- The slice of `CockpitOrganization` the synchronizer reads: `name`,
`logo`, and whether a `parentOrganization` exists. -/
structure CockpitOrganization where
  name : String
  logo : Option CockpitAttachment := none
  hasParentOrganization : Bool := false
  deriving DecidableEq, Repr

/-- The slice of `CockpitCurrentUser` (`/auth/me`) the synchronizer
reads: the user's organization. -/
structure CockpitCurrentUser where
  organization : CockpitOrganization
  deriving DecidableEq, Repr

/-- The slice of `CockpitUserPreferences` the pull sync reads:
`preferences.locale`. -/
structure CockpitUserPreferences where
  locale : Option String := none
  deriving DecidableEq, Repr

/-- Computes `currentUser.organization.logo?.url || currentUser.organization.logo?.link`. -/
def orgLogoOf (user : CockpitCurrentUser) : Option String :=
  match user.organization.logo with
  | none => none
  | some logo => jsOrOpt logo.url logo.link

/-- The `OrganisationGlobalSettings` row slice read and written by the
synchronizer. Boolean columns are non-nullable in the Prisma schema;
the remaining sync targets are nullable and modelled as `Option`. -/
structure OrganisationGlobalSettings where
  brandingEnabled : Bool
  brandingLogo : Option String
  brandingCompanyDetails : Option String
  documentLanguage : Option String
  documentTimezone : Option String
  documentDateFormat : Option String
  documentVisibility : Option DocumentVisibility
  typedSignatureEnabled : Bool
  uploadSignatureEnabled : Bool
  drawSignatureEnabled : Bool
  includeSenderDetails : Bool
  includeSigningCertificate : Bool
  includeAuditLog : Bool
  emailReplyTo : Option String
  deriving DecidableEq, Repr

/-- The `updateData` object of `syncCockpitConfigToOrganisation`: a
field is `none` when the corresponding key is absent from the record. -/
structure UpdateData where
  brandingLogo : Option String := none
  brandingEnabled : Option Bool := none
  brandingCompanyDetails : Option String := none
  documentLanguage : Option String := none
  documentTimezone : Option String := none
  documentDateFormat : Option String := none
  documentVisibility : Option DocumentVisibility := none
  typedSignatureEnabled : Option Bool := none
  uploadSignatureEnabled : Option Bool := none
  drawSignatureEnabled : Option Bool := none
  includeSenderDetails : Option Bool := none
  includeSigningCertificate : Option Bool := none
  includeAuditLog : Option Bool := none
  emailReplyTo : Option String := none
  deriving DecidableEq, Repr

/-- Tests `Object.keys(updateData).length === 0`: no key was ever assigned. -/
def UpdateData.isEmpty (u : UpdateData) : Bool :=
  u.brandingLogo.isNone && u.brandingEnabled.isNone &&
  u.brandingCompanyDetails.isNone && u.documentLanguage.isNone &&
  u.documentTimezone.isNone && u.documentDateFormat.isNone &&
  u.documentVisibility.isNone && u.typedSignatureEnabled.isNone &&
  u.uploadSignatureEnabled.isNone && u.drawSignatureEnabled.isNone &&
  u.includeSenderDetails.isNone && u.includeSigningCertificate.isNone &&
  u.includeAuditLog.isNone && u.emailReplyTo.isNone

/-- Lines 165–174 of the sync module:
`if (!currentSettings.brandingLogo && orgLogo)` set the default branding
logo from the organization and enable branding. -/
def updLogoDefault (currentUser : CockpitCurrentUser)
    (currentSettings : OrganisationGlobalSettings) (u : UpdateData) : UpdateData :=
  if !truthyS currentSettings.brandingLogo ∧ truthyS (orgLogoOf currentUser) then
    { u with brandingLogo := orgLogoOf currentUser, brandingEnabled := some true }
  else u

/-- Lines 176–178 of the sync module:
`if (!currentSettings.brandingCompanyDetails && orgName)`. -/
def updCompanyDefault (currentUser : CockpitCurrentUser)
    (currentSettings : OrganisationGlobalSettings) (u : UpdateData) : UpdateData :=
  if !truthyS currentSettings.brandingCompanyDetails ∧
      !(currentUser.organization.name == "") then
    { u with brandingCompanyDetails := some currentUser.organization.name }
  else u

/-- Lines 180–188 of the sync module: the
`if (cockpitConfig?.documentDefaults)` block; each defined remote field
is assigned (`language || 'en'` for the language). -/
def updDocumentDefaults (cockpitConfig : Option DocumensoConfigMeta)
    (u : UpdateData) : UpdateData :=
  match cockpitConfig.bind (·.documentDefaults) with
  | none => u
  | some dd =>
    let a :=
      match dd.language with
      | some lang => { u with documentLanguage := some (if lang == "" then "en" else lang) }
      | none => u
    let b :=
      match dd.timezone with
      | some tz => { a with documentTimezone := some tz }
      | none => a
    let c :=
      match dd.dateFormat with
      | some df => { b with documentDateFormat := some df }
      | none => b
    match mapDocumentVisibility dd.documentVisibility with
    | some mv => { c with documentVisibility := some mv }
    | none => c

/-- Lines 190–193 of the sync module: the user's locale is synced to the
document language when the remote config defines no (truthy) language
and the preferences carry a truthy locale. -/
def updLocaleFallback (cockpitConfig : Option DocumensoConfigMeta)
    (userPreferences : Option CockpitUserPreferences) (u : UpdateData) : UpdateData :=
  if !truthyS ((cockpitConfig.bind (·.documentDefaults)).bind (·.language)) ∧
      truthyS (userPreferences.bind (·.locale)) then
    { u with documentLanguage := userPreferences.bind (·.locale) }
  else u

/-- Lines 195–205 of the sync module: the
`if (cockpitConfig?.signatureSettings)` block. -/
def updSignatureSettings (cockpitConfig : Option DocumensoConfigMeta)
    (u : UpdateData) : UpdateData :=
  match cockpitConfig.bind (·.signatureSettings) with
  | none => u
  | some ss =>
    let a :=
      match ss.typedSignatureEnabled with
      | some v => { u with typedSignatureEnabled := some v }
      | none => u
    let b :=
      match ss.uploadSignatureEnabled with
      | some v => { a with uploadSignatureEnabled := some v }
      | none => a
    match ss.drawSignatureEnabled with
    | some v => { b with drawSignatureEnabled := some v }
    | none => b

/-- Lines 207–216 of the sync module: the
`if (cockpitConfig?.certificateSettings)` block. -/
def updCertificateSettings (cockpitConfig : Option DocumensoConfigMeta)
    (u : UpdateData) : UpdateData :=
  match cockpitConfig.bind (·.certificateSettings) with
  | none => u
  | some cs =>
    let a :=
      match cs.includeSenderDetails with
      | some v => { u with includeSenderDetails := some v }
      | none => u
    let b :=
      match cs.includeSigningCertificate with
      | some v => { a with includeSigningCertificate := some v }
      | none => a
    match cs.includeAuditLog with
    | some v => { b with includeAuditLog := some v }
    | none => b

/-- Lines 218–222 of the sync module: the
`if (cockpitConfig?.emailSettings)` block. -/
def updEmailSettings (cockpitConfig : Option DocumensoConfigMeta)
    (u : UpdateData) : UpdateData :=
  match (cockpitConfig.bind (·.emailSettings)).bind (·.replyToEmail) with
  | some v => { u with emailReplyTo := some v }
  | none => u

/-- Lines 163–222 of the sync module: the `updateData` record built
block by block from the fetched Cockpit config, the user preferences and
the current user, against the current local settings row. -/
def buildUpdateData (cockpitConfig : Option DocumensoConfigMeta)
    (userPreferences : Option CockpitUserPreferences)
    (currentUser : CockpitCurrentUser)
    (currentSettings : OrganisationGlobalSettings) : UpdateData :=
  updEmailSettings cockpitConfig <|
    updCertificateSettings cockpitConfig <|
      updSignatureSettings cockpitConfig <|
        updLocaleFallback cockpitConfig userPreferences <|
          updDocumentDefaults cockpitConfig <|
            updCompanyDefault currentUser currentSettings <|
              updLogoDefault currentUser currentSettings {}

/-- Lines 230–244 of the sync module: when applying `updateData` over
the current settings would disable all three signature types, the three
signature keys are deleted from `updateData`. -/
def dropSignatureIfAllDisabled (u : UpdateData)
    (currentSettings : OrganisationGlobalSettings) : UpdateData :=
  let finalTypedEnabled := u.typedSignatureEnabled.getD currentSettings.typedSignatureEnabled
  let finalUploadEnabled := u.uploadSignatureEnabled.getD currentSettings.uploadSignatureEnabled
  let finalDrawEnabled := u.drawSignatureEnabled.getD currentSettings.drawSignatureEnabled
  if !finalTypedEnabled ∧ !finalUploadEnabled ∧ !finalDrawEnabled then
    { u with typedSignatureEnabled := none, uploadSignatureEnabled := none,
             drawSignatureEnabled := none }
  else u

/-- The effect of `prisma.organisationGlobalSettings.update` with data
`u`: every key present in `u` overwrites the stored column, every absent
key leaves it unchanged. -/
def applyUpdate (s : OrganisationGlobalSettings) (u : UpdateData) :
    OrganisationGlobalSettings :=
  { brandingEnabled := u.brandingEnabled.getD s.brandingEnabled
    brandingLogo := u.brandingLogo.map some |>.getD s.brandingLogo
    brandingCompanyDetails := u.brandingCompanyDetails.map some |>.getD s.brandingCompanyDetails
    documentLanguage := u.documentLanguage.map some |>.getD s.documentLanguage
    documentTimezone := u.documentTimezone.map some |>.getD s.documentTimezone
    documentDateFormat := u.documentDateFormat.map some |>.getD s.documentDateFormat
    documentVisibility := u.documentVisibility.map some |>.getD s.documentVisibility
    typedSignatureEnabled := u.typedSignatureEnabled.getD s.typedSignatureEnabled
    uploadSignatureEnabled := u.uploadSignatureEnabled.getD s.uploadSignatureEnabled
    drawSignatureEnabled := u.drawSignatureEnabled.getD s.drawSignatureEnabled
    includeSenderDetails := u.includeSenderDetails.getD s.includeSenderDetails
    includeSigningCertificate := u.includeSigningCertificate.getD s.includeSigningCertificate
    includeAuditLog := u.includeAuditLog.getD s.includeAuditLog
    emailReplyTo := u.emailReplyTo.map some |>.getD s.emailReplyTo }

/-- Function `syncCockpitConfigToOrganisation` from the sync module: the three
parallel Cockpit fetches and the organisation-membership lookup are
inputs (`organisation` is the member organisation's settings row, `none`
= no membership). Returns the boolean result together with the stored
settings row after the call. -/
def syncCockpitConfigToOrganisation (cockpitConfig : Option DocumensoConfigMeta)
    (userPreferences : Option CockpitUserPreferences)
    (currentUser : Option CockpitCurrentUser)
    (organisation : Option OrganisationGlobalSettings) :
    Bool × Option OrganisationGlobalSettings :=
  match currentUser with
  | none => (false, organisation)
  | some user =>
    match organisation with
    | none => (false, none)
    | some currentSettings =>
      let updateData := buildUpdateData cockpitConfig userPreferences user currentSettings
      if updateData.isEmpty then (true, some currentSettings)
      else
        let updateData' := dropSignatureIfAllDisabled updateData currentSettings
        (true, some (applyUpdate currentSettings updateData'))

/-- Model of `Partial<OrganisationGlobalSettings>` as consumed by the push sync:
every field optional (`none` = absent/`undefined`; nullable columns carry
their nullable value when present). -/
structure PartialOrganisationGlobalSettings where
  brandingEnabled : Option Bool := none
  brandingCompanyDetails : Option (Option String) := none
  documentLanguage : Option (Option String) := none
  documentTimezone : Option (Option String) := none
  documentDateFormat : Option (Option String) := none
  documentVisibility : Option (Option DocumentVisibility) := none
  typedSignatureEnabled : Option Bool := none
  uploadSignatureEnabled : Option Bool := none
  drawSignatureEnabled : Option Bool := none
  includeSenderDetails : Option Bool := none
  includeSigningCertificate : Option Bool := none
  includeAuditLog : Option Bool := none
  emailReplyTo : Option (Option String) := none
  deriving DecidableEq, Repr

/-- JavaScript `a ?? undefined` on a possibly-absent nullable value:
collapses both "absent" and "present but null" to `undefined`. -/
def joinNullish (a : Option (Option String)) : Option String :=
  a.getD none

/-- Function `mapDocumentVisibilityToCockpit` from the sync module. -/
def mapDocumentVisibilityToCockpit (visibility : Option DocumentVisibility) :
    Option String :=
  match visibility with
  | none => none
  | some .EVERYONE => some "EVERYONE"
  | some .MANAGER_AND_ABOVE => some "MANAGER_AND_ABOVE"
  | some .ADMIN => some "ADMIN"

/-- Lines 314–356 of the sync module: the outbound `cockpitSettings`
payload of `syncOrganisationToCockpit`. Branding is always present;
the document-default, signature, certificate and email sections are
assigned only when the user's organization has no parent
(`isParentOrg = !currentUser.organization.parentOrganization`). -/
def buildCockpitSettings (currentUser : CockpitCurrentUser)
    (settings : PartialOrganisationGlobalSettings) : DocumensoConfigMeta :=
  let isParentOrg := !currentUser.organization.hasParentOrganization
  let orgLogo := orgLogoOf currentUser
  let base : DocumensoConfigMeta :=
    { branding := some
        { enabled := settings.brandingEnabled
          logo := orgLogo
          companyName := joinNullish settings.brandingCompanyDetails } }
  if isParentOrg then
    { base with
        documentDefaults := some
          { language := joinNullish settings.documentLanguage
            timezone := joinNullish settings.documentTimezone
            dateFormat := joinNullish settings.documentDateFormat
            documentVisibility :=
              mapDocumentVisibilityToCockpit (settings.documentVisibility.getD none) }
        signatureSettings := some
          { typedSignatureEnabled := settings.typedSignatureEnabled
            uploadSignatureEnabled := settings.uploadSignatureEnabled
            drawSignatureEnabled := settings.drawSignatureEnabled }
        certificateSettings := some
          { includeSenderDetails := settings.includeSenderDetails
            includeSigningCertificate := settings.includeSigningCertificate
            includeAuditLog := settings.includeAuditLog }
        emailSettings := some
          { replyToEmail := joinNullish settings.emailReplyTo } }
  else base

/-- Function `syncOrganisationToCockpit` from the sync module, up to the payload
handed to `upsertDocumensoConfig`: `accessToken` is the result of
`getUserAccessToken` and `currentUser` of `getCurrentUser`. Returns the
outbound payload, or `none` when the sync is skipped before anything is
sent (missing token or missing user). -/
def syncOrganisationToCockpit (accessToken : Option String)
    (currentUser : Option CockpitCurrentUser)
    (settings : PartialOrganisationGlobalSettings) : Option DocumensoConfigMeta :=
  if !truthyS accessToken then none
  else
    match currentUser with
    | none => none
    | some user => some (buildCockpitSettings user settings)

/-! ## Recipient Suggestion Aggregator

`getRecipientSuggestions` from
`packages/lib/server-only/recipient/get-recipient-suggestions.ts`,
lines 124–195: the merge, deduplication and pagination over the three
already-fetched result lists (the Cockpit user search mapped to
suggestions, the historical-recipient rows, and the team-member rows). -/

/-- The `RecipientSuggestion` record of `get-recipient-suggestions.ts`. -/
structure RecipientSuggestion where
  name : Option String
  email : String
  avatarUrl : Option String := none
  organizationName : Option String := none
  deriving DecidableEq, Repr

/-- A local row carrying `name` and `email`, as selected from the
`recipient` and `organisationMember`/`user` tables. -/
structure LocalRecipient where
  name : Option String
  email : String
  deriving DecidableEq, Repr

/-- The suggestion pushed for a local row: `{ name, email }` with the
optional fields left absent. -/
def localToSuggestion (r : LocalRecipient) : RecipientSuggestion :=
  { name := r.name, email := r.email }

/-- One iteration of the merge loops: push the suggestion and record its
lower-cased email unless the email was already seen or fails the email
check. The state is `(seenEmails, allSuggestions)`. -/
def addSuggestion (st : List String × List RecipientSuggestion)
    (s : RecipientSuggestion) : List String × List RecipientSuggestion :=
  if lowerString s.email ∉ st.1 ∧ isValidEmail s.email then
    (lowerString s.email :: st.1, st.2 ++ [s])
  else st

/-- One full merge loop over a source's result list. -/
def addSuggestions (st : List String × List RecipientSuggestion)
    (l : List RecipientSuggestion) : List String × List RecipientSuggestion :=
  l.foldl addSuggestion st

/-- The `GetRecipientSuggestionsResult` record. -/
structure GetRecipientSuggestionsResult where
  suggestions : List RecipientSuggestion
  hasMore : Bool
  nextSkip : Nat
  deriving DecidableEq, Repr

/-- Function `getRecipientSuggestions`, lines 124–195: Cockpit suggestions are
merged first, then historical recipients, then — only when the merged
count is still short of `skip + take` and `teamId` is truthy — team
members; the result is the `[skip, skip + take)` slice with
`hasMore = allSuggestions.length > skip + take` and
`nextSkip = skip + take`. -/
def getRecipientSuggestions (cockpitSuggestions : List RecipientSuggestion)
    (recipients teamMembers : List LocalRecipient)
    (teamId take skip : Nat) : GetRecipientSuggestionsResult :=
  let st1 := addSuggestions ([], []) cockpitSuggestions
  let st2 := addSuggestions st1 (recipients.map localToSuggestion)
  let allSuggestions :=
    if st2.2.length < skip + take ∧ teamId ≠ 0 then
      (addSuggestions st2 (teamMembers.map localToSuggestion)).2
    else st2.2
  { suggestions := (allSuggestions.drop skip).take take
    hasMore := decide (allSuggestions.length > skip + take)
    nextSkip := skip + take }

/-! ## Helper lemmas -/

theorem truthyS_eq_true_iff (o : Option String) :
    truthyS o = true ↔ ∃ s, o = some s ∧ s ≠ "" := by
  cases o with
  | none => simp [truthyS]
  | some s => simp [truthyS]

theorem truthyS_ne_none {o : Option String} (h : truthyS o = true) : o ≠ none := by
  cases o with
  | none => simp [truthyS] at h
  | some s => simp

/-! ## Token Lifecycle Manager: theorems -/

/-- C5. For every stored credential with a (truthy) access token that
is not near expiry (`expiresAt − 300 > now`), `getUserAccessToken` takes
the fast path: no refresh is attempted (hence no network call), the
stored account row is unchanged, and the stored access token is returned
unchanged. -/
theorem C5_fast_path_no_network (acct : Account) (now : Int)
    (oidcConfigured : Bool) (refreshOutcome : Option TokenResponse)
    (htok : truthyS acct.access_token = true)
    (hfresh : now < acct.expires_at.getD 0 - TOKEN_REFRESH_BUFFER_SECONDS) :
    getUserAccessToken (some acct) now oidcConfigured refreshOutcome =
      ⟨acct.access_token, some acct, false⟩ := by
  have hnot : ¬(acct.expires_at.getD 0 > 0 ∧
      acct.expires_at.getD 0 - TOKEN_REFRESH_BUFFER_SECONDS < now) := by
    rintro ⟨-, h2⟩
    omega
  simp [getUserAccessToken, htok, hnot]

/-- Witness for C5 at a concrete credential: token `"tok"` expiring at
epoch second `10000`, read at `now = 0`. -/
theorem C5_fast_path_no_network_witness :
    getUserAccessToken (some ⟨"acct-1", some "tok", some "r", some 10000⟩) 0 true none =
      ⟨some "tok", some ⟨"acct-1", some "tok", some "r", some 10000⟩, false⟩ :=
  C5_fast_path_no_network _ _ _ _ (by decide) (by decide)

/-- C6. For every stored credential with a (truthy) access token,
`getUserAccessToken` returns `none` exactly when no credential or no
stored access token exists; when no refresh token exists it returns the
stale stored token without attempting any refresh (no network call), and
when the refresh attempt fails it still returns the stale stored access
token rather than `none`. -/
theorem C6_stale_token_fallback (acct : Account) (now : Int)
    (oidcConfigured : Bool) (refreshOutcome : Option TokenResponse) :
    ((getUserAccessToken (some acct) now oidcConfigured refreshOutcome).token = none
        ↔ truthyS acct.access_token = false)
    ∧ (getUserAccessToken none now oidcConfigured refreshOutcome).token = none
    ∧ (truthyS acct.access_token = true → truthyS acct.refresh_token = false →
        getUserAccessToken (some acct) now oidcConfigured refreshOutcome =
          ⟨acct.access_token, some acct, false⟩)
    ∧ (truthyS acct.access_token = true →
        (refreshAccessToken acct oidcConfigured refreshOutcome).1 = none →
        (getUserAccessToken (some acct) now oidcConfigured refreshOutcome).token =
          acct.access_token) := by
  refine ⟨?_, rfl, ?_, ?_⟩
  · cases htok : truthyS acct.access_token with
    | false => simp [getUserAccessToken, htok]
    | true =>
      simp only [iff_false, Bool.true_eq_false]
      have hne := truthyS_ne_none htok
      simp only [getUserAccessToken, htok, Bool.not_true, Bool.false_eq_true, if_false]
      split
      · split
        · rcases hr : refreshAccessToken acct oidcConfigured refreshOutcome with ⟨tok?, acct'⟩
          cases tok? with
          | none => simpa [hr] using hne
          | some t => simp [hr]
        · simpa using hne
      · simpa using hne
  · intro htok hrt
    have hnotand : ∀ p : Prop, ¬(truthyS acct.refresh_token = true ∧ p) := by
      intro p hc
      rw [hrt] at hc
      exact absurd hc.1 (by simp)
    simp only [getUserAccessToken, htok, Bool.not_true, Bool.false_eq_true, if_false]
    split
    · rw [hrt]; simp
    · rfl
  · intro htok hfail
    have hne := truthyS_ne_none htok
    simp only [getUserAccessToken, htok, Bool.not_true, Bool.false_eq_true, if_false]
    split
    · split
      · rcases hr : refreshAccessToken acct oidcConfigured refreshOutcome with ⟨tok?, acct'⟩
        cases tok? with
        | none => simp [hr]
        | some t => rw [hr] at hfail; simp at hfail
      · rfl
    · rfl

/-- Witness for C6 at the spec's own example: `expiresAt = now − 1000`,
no refresh token; the stale access token is returned with no network
call. -/
theorem C6_stale_token_fallback_witness :
    getUserAccessToken (some ⟨"acct-1", some "old", none, some 1000⟩) 2000 true none =
      ⟨some "old", some ⟨"acct-1", some "old", none, some 1000⟩, false⟩ :=
  (C6_stale_token_fallback ⟨"acct-1", some "old", none, some 1000⟩ 2000 true none).2.2.1
    (by decide) (by decide)

/-- C2, counterexample. A near-expiry credential
(`expiresAt = 1000000`, read at `now = 999800`) is successfully
refreshed — the provider returns the new token and an expiry of epoch
millisecond `999000000` — yet the stored `expires_at` DECREASES from
`1000000` to `999000`: the code stores whatever expiry the provider
returns and does not enforce monotonicity. -/
theorem C2_expiry_not_monotonic_counterexample :
    getUserAccessToken (some ⟨"acct-1", some "old", some "r", some 1000000⟩) 999800 true
        (some ⟨"new", 999000000, none⟩) =
      ⟨some "new", some ⟨"acct-1", some "new", some "r", some 999000⟩, true⟩
    ∧ (999000 : Int) < 1000000
    ∧ ((1000000 : Int) - TOKEN_REFRESH_BUFFER_SECONDS < 999800) := by
  refine ⟨by decide, by decide, by decide⟩

/-- C2, amended. For every stored provider credential, a failed
refresh leaves the stored credential identical to its value before the
call (in particular the stored refresh token is never mutated), and a
successful refresh stores the provider-returned expiry, which strictly
increases `expiresAt` whenever that returned expiry exceeds the stored
value; the code itself does not otherwise enforce monotonicity. -/
theorem C2_refresh_amended (a : Account) (oidcConfigured : Bool)
    (outcome : Option TokenResponse) (t : TokenResponse) (old : Int) :
    ((refreshAccessToken a oidcConfigured outcome).1 = none →
        (refreshAccessToken a oidcConfigured outcome).2 = a)
    ∧ (a.expires_at = some old → old < Int.fdiv t.expiresAtMs 1000 →
        (refreshAccessToken a true (some t)).1 = some t.accessToken
        ∧ (refreshAccessToken a true (some t)).2.expires_at =
            some (Int.fdiv t.expiresAtMs 1000)
        ∧ old < Int.fdiv t.expiresAtMs 1000) := by
  constructor
  · cases oidcConfigured with
    | false => intro _; simp [refreshAccessToken]
    | true =>
      cases outcome with
      | none => intro _; simp [refreshAccessToken]
      | some t' => intro h; simp [refreshAccessToken] at h
  · intro _ hlt
    exact ⟨by simp [refreshAccessToken], by simp [refreshAccessToken], hlt⟩

/-- Witness for C2's amended theorem: a failed refresh
(token-endpoint call throws) leaves the concrete stored account
untouched, and a successful refresh to epoch second `2000` strictly
increases the stored expiry from `1500`. -/
theorem C2_refresh_amended_witness :
    (refreshAccessToken ⟨"acct-1", some "old", some "r", some 1500⟩ true none).2 =
      ⟨"acct-1", some "old", some "r", some 1500⟩
    ∧ (refreshAccessToken ⟨"acct-1", some "old", some "r", some 1500⟩ true
        (some ⟨"new", 2000000, some "r2"⟩)).2.expires_at = some 2000 :=
  ⟨(C2_refresh_amended ⟨"acct-1", some "old", some "r", some 1500⟩ true none
      ⟨"new", 2000000, some "r2"⟩ 1500).1 (by decide),
   ((C2_refresh_amended ⟨"acct-1", some "old", some "r", some 1500⟩ true none
      ⟨"new", 2000000, some "r2"⟩ 1500).2 (by decide) (by decide)).2.1⟩

/-! ## Key Set Cache and JWT Verifier: theorems -/

/-- C4, counterexample. With a previously cached key set (`some 7`)
whose age has reached the 1-hour TTL, a failing remote fetch makes
`getJwks` return `Unavailable` (`none`) — it does NOT keep serving the
previously cached value, although one exists. -/
theorem C4_stale_cache_counterexample :
    getJwks (some "https://idp/.well-known") ⟨some 7, 0⟩ JWKS_CACHE_TTL none 9 =
      (none, ⟨some 7, 0⟩)
    ∧ (⟨some 7, 0⟩ : JwksCacheState).cachedJwks.isSome = true := by
  constructor
  · decide
  · decide

/-- C4, amended. A cached key set is served, with no fetch at all,
only while its age is under the 1-hour TTL; whenever a fetch actually
happens and fails, `getJwks` returns `Unavailable` regardless of whether
a (stale) cached value exists, leaving the cache state unchanged. -/
theorem C4_jwks_cache_amended (wellKnownUrl : Option String)
    (st : JwksCacheState) (now : Int) (fetchOutcome : Option (Option String))
    (newKeys : Nat) (hurl : truthyS wellKnownUrl = true) :
    (st.cachedJwks.isSome = true → now - st.jwksLastFetched < JWKS_CACHE_TTL →
        getJwks wellKnownUrl st now fetchOutcome newKeys = (st.cachedJwks, st))
    ∧ (¬(st.cachedJwks.isSome = true ∧ now - st.jwksLastFetched < JWKS_CACHE_TTL) →
        getJwks wellKnownUrl st now none newKeys = (none, st)) := by
  constructor
  · intro h1 h2
    simp [getJwks, hurl, h1, h2]
  · intro hnot
    simp [getJwks, hurl, hnot]

/-- Witness for C4's amended theorem: a fresh cached key set (`some 5`,
fetched at 0, read at 10) is served as-is even though the supplied fetch
outcome would have produced new keys, and with the same cache read at
the TTL a failing fetch yields `Unavailable`. -/
theorem C4_jwks_cache_amended_witness :
    getJwks (some "u") ⟨some 5, 0⟩ 10 (some (some "j")) 9 = (some 5, ⟨some 5, 0⟩)
    ∧ getJwks (some "u") ⟨some 5, 0⟩ JWKS_CACHE_TTL none 9 = (none, ⟨some 5, 0⟩) :=
  ⟨(C4_jwks_cache_amended (some "u") ⟨some 5, 0⟩ 10 (some (some "j")) 9
      (by decide)).1 (by decide) (by decide),
   (C4_jwks_cache_amended (some "u") ⟨some 5, 0⟩ JWKS_CACHE_TTL none 9
      (by decide)).2 (by decide)⟩

/-- C3, counterexample. A token that verifies successfully with the
email claim `"not-an-email"` is accepted by `validateAuthentikJwt` and
the returned claims carry that email, although it is not syntactically
valid: the function checks only that the claim is a non-empty string,
not that it is a well-formed email address. -/
theorem C3_email_syntax_counterexample :
    validateAuthentikJwt (some 1)
        (some { sub := some "user-1", email := some (.jstr "not-an-email"),
                name := none, preferred_username := none, exp := some 9999999999 }) =
      some { sub := some "user-1", email := "not-an-email", name := none,
             preferred_username := none, exp := some 9999999999 }
    ∧ isValidEmail "not-an-email" = false := by
  constructor
  · rfl
  · decide

/-- C3, amended. For every input, `validateAuthentikJwt` never
throws past its boundary (it is a total function into `Option`) and
returns `Invalid` (`none`) exactly when the verification keys are
unavailable, `jose.jwtVerify` throws (malformed token, signature
mismatch, expired token), or the email claim is missing, non-string or
empty; whenever it succeeds, the returned claims' email is a non-empty
string — its syntactic validity is not checked. -/
theorem C3_jwt_verification_amended (jwks : Option Nat)
    (verifyOutcome : Option JoseJwtPayload) :
    ((validateAuthentikJwt jwks verifyOutcome = none) ↔
      (jwks = none ∨ verifyOutcome = none ∨
        ∃ p, verifyOutcome = some p ∧ emailClaimMissing p = true))
    ∧ (∀ r, validateAuthentikJwt jwks verifyOutcome = some r → r.email ≠ "") := by
  constructor
  · cases jwks with
    | none => simp [validateAuthentikJwt]
    | some k =>
      cases verifyOutcome with
      | none => simp [validateAuthentikJwt]
      | some p =>
        cases hpe : p.email with
        | none => simp [validateAuthentikJwt, emailClaimMissing, hpe]
        | some cv =>
          cases cv with
          | jother => simp [validateAuthentikJwt, emailClaimMissing, hpe]
          | jstr s =>
            by_cases hs : s = ""
            · subst hs
              simp [validateAuthentikJwt, emailClaimMissing, hpe]
            · simp [validateAuthentikJwt, emailClaimMissing, hpe, hs]
  · intro r hr
    cases jwks with
    | none => simp [validateAuthentikJwt] at hr
    | some k =>
      cases verifyOutcome with
      | none => simp [validateAuthentikJwt] at hr
      | some p =>
        cases hpe : p.email with
        | none => simp [validateAuthentikJwt, hpe] at hr
        | some cv =>
          cases cv with
          | jother => simp [validateAuthentikJwt, hpe] at hr
          | jstr s =>
            by_cases hs : s = ""
            · simp [validateAuthentikJwt, hpe, hs] at hr
            · simp only [validateAuthentikJwt, hpe] at hr
              rw [if_neg (by simpa using hs)] at hr
              cases hr
              simpa using hs

/-- Witness for C3's amended theorem: a successfully verified token with
email claim `"teacher@school.example"` yields claims whose email is
non-empty. -/
theorem C3_jwt_verification_amended_witness :
    ({ sub := some "user-1", email := "teacher@school.example", name := none,
       preferred_username := none, exp := none } : JwtPayload).email ≠ "" :=
  (C3_jwt_verification_amended (some 1)
      (some { sub := some "user-1", email := some (.jstr "teacher@school.example"),
              name := none, preferred_username := none, exp := none })).2
    _ (by decide)

/-! ## Settings Synchronizer: push theorems -/

/-- C7. For every push sync that gets as far as producing an
outbound payload, the payload always carries the branding section
(enabled flag, logo reference, company text), and it carries the
document-default, signature-policy, certificate/audit and reply-to-email
sections if and only if the user's organization is root (has no parent
organization). -/
theorem C7_push_payload_scope (accessToken : Option String)
    (u : CockpitCurrentUser) (settings : PartialOrganisationGlobalSettings)
    (p : DocumensoConfigMeta)
    (h : syncOrganisationToCockpit accessToken (some u) settings = some p) :
    p.branding = some
      { enabled := settings.brandingEnabled
        logo := orgLogoOf u
        companyName := joinNullish settings.brandingCompanyDetails }
    ∧ (p.documentDefaults.isSome = true ↔ u.organization.hasParentOrganization = false)
    ∧ (p.signatureSettings.isSome = true ↔ u.organization.hasParentOrganization = false)
    ∧ (p.certificateSettings.isSome = true ↔ u.organization.hasParentOrganization = false)
    ∧ (p.emailSettings.isSome = true ↔ u.organization.hasParentOrganization = false) := by
  have hp : p = buildCockpitSettings u settings := by
    by_cases ht : truthyS accessToken = true
    · simp [syncOrganisationToCockpit, ht] at h
      exact h.symm
    · rw [Bool.not_eq_true] at ht
      simp [syncOrganisationToCockpit, ht] at h
  subst hp
  unfold buildCockpitSettings
  cases hpar : u.organization.hasParentOrganization with
  | false => simp
  | true => simp

/-- Witness for C7 at a concrete root-organization user pushing empty
partial settings with a present access token. -/
theorem C7_push_payload_scope_witness :
    (buildCockpitSettings ⟨⟨"School Board", none, false⟩⟩
        ({} : PartialOrganisationGlobalSettings)).documentDefaults.isSome = true :=
  ((C7_push_payload_scope (some "tok") ⟨⟨"School Board", none, false⟩⟩ {}
      (buildCockpitSettings ⟨⟨"School Board", none, false⟩⟩ {}) (by decide)).2.1).mpr rfl

/-! ## Settings Synchronizer: pull lemmas

Field-wise record forms of the seven assignment blocks of
`buildUpdateData`, used to compute individual fields of the final
`updateData`. -/

theorem updLogoDefault_eq (cu : CockpitCurrentUser)
    (s : OrganisationGlobalSettings) (u : UpdateData) :
    updLogoDefault cu s u = { u with
      brandingLogo :=
        if !truthyS s.brandingLogo ∧ truthyS (orgLogoOf cu) then orgLogoOf cu
        else u.brandingLogo
      brandingEnabled :=
        if !truthyS s.brandingLogo ∧ truthyS (orgLogoOf cu) then some true
        else u.brandingEnabled } := by
  unfold updLogoDefault
  split
  · next hc => simp [hc]
  · next hc => simp [hc]

theorem updCompanyDefault_eq (cu : CockpitCurrentUser)
    (s : OrganisationGlobalSettings) (u : UpdateData) :
    updCompanyDefault cu s u = { u with
      brandingCompanyDetails :=
        if !truthyS s.brandingCompanyDetails ∧ !(cu.organization.name == "") then
          some cu.organization.name
        else u.brandingCompanyDetails } := by
  unfold updCompanyDefault
  split
  · next hc => simp [hc]
  · next hc => simp [hc]

theorem updDocumentDefaults_eq (cfg : Option DocumensoConfigMeta) (u : UpdateData) :
    updDocumentDefaults cfg u = { u with
      documentLanguage :=
        match (cfg.bind (·.documentDefaults)).bind (·.language) with
        | some lang => some (if lang == "" then "en" else lang)
        | none => u.documentLanguage
      documentTimezone :=
        match (cfg.bind (·.documentDefaults)).bind (·.timezone) with
        | some tz => some tz
        | none => u.documentTimezone
      documentDateFormat :=
        match (cfg.bind (·.documentDefaults)).bind (·.dateFormat) with
        | some df => some df
        | none => u.documentDateFormat
      documentVisibility :=
        match mapDocumentVisibility
            ((cfg.bind (·.documentDefaults)).bind (·.documentVisibility)) with
        | some mv => some mv
        | none => u.documentVisibility } := by
  rcases cfg with _ | cfg
  · rfl
  · rcases hdd : cfg.documentDefaults with _ | dd
    · simp [updDocumentDefaults, hdd]
      rfl
    · rcases dd with ⟨lang, tz, df, dv⟩
      rcases lang with _ | lang <;> rcases tz with _ | tz <;>
        rcases df with _ | df <;> cases hmv : mapDocumentVisibility dv <;>
        simp [updDocumentDefaults, hdd, hmv]

theorem updLocaleFallback_eq (cfg : Option DocumensoConfigMeta)
    (prefs : Option CockpitUserPreferences) (u : UpdateData) :
    updLocaleFallback cfg prefs u = { u with
      documentLanguage :=
        if !truthyS ((cfg.bind (·.documentDefaults)).bind (·.language)) ∧
            truthyS (prefs.bind (·.locale)) then
          prefs.bind (·.locale)
        else u.documentLanguage } := by
  unfold updLocaleFallback
  split
  · next hc => simp [hc]
  · next hc => simp [hc]

theorem updSignatureSettings_eq (cfg : Option DocumensoConfigMeta) (u : UpdateData) :
    updSignatureSettings cfg u = { u with
      typedSignatureEnabled :=
        match (cfg.bind (·.signatureSettings)).bind (·.typedSignatureEnabled) with
        | some v => some v
        | none => u.typedSignatureEnabled
      uploadSignatureEnabled :=
        match (cfg.bind (·.signatureSettings)).bind (·.uploadSignatureEnabled) with
        | some v => some v
        | none => u.uploadSignatureEnabled
      drawSignatureEnabled :=
        match (cfg.bind (·.signatureSettings)).bind (·.drawSignatureEnabled) with
        | some v => some v
        | none => u.drawSignatureEnabled } := by
  rcases cfg with _ | cfg
  · rfl
  · rcases hss : cfg.signatureSettings with _ | ss
    · simp [updSignatureSettings, hss]
    · rcases ss with ⟨t, up, d⟩
      rcases t with _ | t <;> rcases up with _ | up <;> rcases d with _ | d <;>
        simp [updSignatureSettings, hss]

theorem updCertificateSettings_eq (cfg : Option DocumensoConfigMeta) (u : UpdateData) :
    updCertificateSettings cfg u = { u with
      includeSenderDetails :=
        match (cfg.bind (·.certificateSettings)).bind (·.includeSenderDetails) with
        | some v => some v
        | none => u.includeSenderDetails
      includeSigningCertificate :=
        match (cfg.bind (·.certificateSettings)).bind (·.includeSigningCertificate) with
        | some v => some v
        | none => u.includeSigningCertificate
      includeAuditLog :=
        match (cfg.bind (·.certificateSettings)).bind (·.includeAuditLog) with
        | some v => some v
        | none => u.includeAuditLog } := by
  rcases cfg with _ | cfg
  · rfl
  · rcases hcs : cfg.certificateSettings with _ | cs
    · simp [updCertificateSettings, hcs]
    · rcases cs with ⟨a, b, c⟩
      rcases a with _ | a <;> rcases b with _ | b <;> rcases c with _ | c <;>
        simp [updCertificateSettings, hcs]

theorem updEmailSettings_eq (cfg : Option DocumensoConfigMeta) (u : UpdateData) :
    updEmailSettings cfg u = { u with
      emailReplyTo :=
        match (cfg.bind (·.emailSettings)).bind (·.replyToEmail) with
        | some v => some v
        | none => u.emailReplyTo } := by
  unfold updEmailSettings
  cases hre : (cfg.bind (·.emailSettings)).bind (·.replyToEmail) <;> simp [hre]

/-- Lemma: `dropSignatureIfAllDisabled` either leaves `updateData` unchanged or
exactly nulls the three signature keys. -/
theorem dropSignature_eq_or (u : UpdateData) (s : OrganisationGlobalSettings) :
    dropSignatureIfAllDisabled u s = u ∨
    dropSignatureIfAllDisabled u s =
      { u with typedSignatureEnabled := none, uploadSignatureEnabled := none,
               drawSignatureEnabled := none } := by
  simp only [dropSignatureIfAllDisabled]
  by_cases hc : (!u.typedSignatureEnabled.getD s.typedSignatureEnabled) = true ∧
      (!u.uploadSignatureEnabled.getD s.uploadSignatureEnabled) = true ∧
      (!u.drawSignatureEnabled.getD s.drawSignatureEnabled) = true
  · rw [if_pos hc]
    right
    rfl
  · rw [if_neg hc]
    left
    rfl

/-- An empty `updateData` record has every field absent. -/
theorem isEmpty_fields {u : UpdateData} (h : u.isEmpty = true) :
    u.brandingLogo = none ∧ u.brandingEnabled = none ∧
    u.brandingCompanyDetails = none ∧ u.documentLanguage = none ∧
    u.documentTimezone = none ∧ u.documentDateFormat = none ∧
    u.documentVisibility = none ∧ u.typedSignatureEnabled = none ∧
    u.uploadSignatureEnabled = none ∧ u.drawSignatureEnabled = none ∧
    u.includeSenderDetails = none ∧ u.includeSigningCertificate = none ∧
    u.includeAuditLog = none ∧ u.emailReplyTo = none := by
  simp only [UpdateData.isEmpty, Bool.and_eq_true, Option.isNone_iff_eq_none] at h
  tauto

/-- Applying an empty `updateData` record is the identity. -/
theorem applyUpdate_empty (s : OrganisationGlobalSettings) {u : UpdateData}
    (h : u.isEmpty = true) : applyUpdate s u = s := by
  obtain ⟨h1, h2, h3, h4, h5, h6, h7, h8, h9, h10, h11, h12, h13, h14⟩ := isEmpty_fields h
  simp [applyUpdate, h1, h2, h3, h4, h5, h6, h7, h8, h9, h10, h11, h12, h13, h14]

/-! ## Settings Synchronizer: pull theorems -/

/-- C1, counterexample. A pull sync whose remote config defines a
document timezone overwrites a local `documentTimezone` that is already
non-null (`"Europe/Berlin"` becomes `"UTC"`): the non-branding fields
are not diffed against the local value, contradicting the claim that
only currently-unset local fields are ever written. -/
theorem C1_pull_overwrite_counterexample :
    (syncCockpitConfigToOrganisation
        (some { documentDefaults := some { timezone := some "UTC" } })
        none
        (some ⟨⟨"", none, false⟩⟩)
        (some ⟨false, none, none, none, some "Europe/Berlin", none, none,
               true, true, true, true, true, true, none⟩)).2.map
      (·.documentTimezone) = some (some "UTC")
    ∧ (⟨false, none, none, none, some "Europe/Berlin", none, none,
        true, true, true, true, true, true, none⟩ :
          OrganisationGlobalSettings).documentTimezone = some "Europe/Berlin" := by
  constructor
  · decide
  · rfl

/-- C1, amended. For every pull sync, only the branding fields are
diffed: a branding field (logo, company details) is written only if the
remote organization profile provides a truthy value AND the local field
is currently unset (the branding-logo default also sets the
branding-enabled flag). The non-branding fields (document defaults,
signature policy, certificate/audit, reply-to email) are left unchanged
whenever the remote source provides no defined value for them, but are
overwritten — even when already non-null locally — whenever it does. -/
theorem C1_pull_diff_amended (cfg : Option DocumensoConfigMeta)
    (prefs : Option CockpitUserPreferences) (cu : Option CockpitCurrentUser)
    (s r : OrganisationGlobalSettings)
    (h : (syncCockpitConfigToOrganisation cfg prefs cu (some s)).2 = some r) :
    (truthyS s.brandingLogo = true →
        r.brandingLogo = s.brandingLogo ∧ r.brandingEnabled = s.brandingEnabled)
    ∧ (truthyS s.brandingCompanyDetails = true →
        r.brandingCompanyDetails = s.brandingCompanyDetails)
    ∧ ((cfg.bind (·.documentDefaults)).bind (·.timezone) = none →
        r.documentTimezone = s.documentTimezone)
    ∧ ((cfg.bind (·.documentDefaults)).bind (·.dateFormat) = none →
        r.documentDateFormat = s.documentDateFormat)
    ∧ (mapDocumentVisibility
          ((cfg.bind (·.documentDefaults)).bind (·.documentVisibility)) = none →
        r.documentVisibility = s.documentVisibility)
    ∧ ((cfg.bind (·.documentDefaults)).bind (·.language) = none →
        truthyS (prefs.bind (·.locale)) = false →
        r.documentLanguage = s.documentLanguage)
    ∧ ((cfg.bind (·.signatureSettings)).bind (·.typedSignatureEnabled) = none →
        r.typedSignatureEnabled = s.typedSignatureEnabled)
    ∧ ((cfg.bind (·.signatureSettings)).bind (·.uploadSignatureEnabled) = none →
        r.uploadSignatureEnabled = s.uploadSignatureEnabled)
    ∧ ((cfg.bind (·.signatureSettings)).bind (·.drawSignatureEnabled) = none →
        r.drawSignatureEnabled = s.drawSignatureEnabled)
    ∧ ((cfg.bind (·.certificateSettings)).bind (·.includeSenderDetails) = none →
        r.includeSenderDetails = s.includeSenderDetails)
    ∧ ((cfg.bind (·.certificateSettings)).bind (·.includeSigningCertificate) = none →
        r.includeSigningCertificate = s.includeSigningCertificate)
    ∧ ((cfg.bind (·.certificateSettings)).bind (·.includeAuditLog) = none →
        r.includeAuditLog = s.includeAuditLog)
    ∧ ((cfg.bind (·.emailSettings)).bind (·.replyToEmail) = none →
        r.emailReplyTo = s.emailReplyTo) := by
  rcases cu with _ | user
  · simp only [syncCockpitConfigToOrganisation] at h
    obtain rfl : s = r := by simpa using h
    exact ⟨fun _ => ⟨rfl, rfl⟩, fun _ => rfl, fun _ => rfl, fun _ => rfl, fun _ => rfl,
      fun _ _ => rfl, fun _ => rfl, fun _ => rfl, fun _ => rfl, fun _ => rfl,
      fun _ => rfl, fun _ => rfl, fun _ => rfl⟩
  · simp only [syncCockpitConfigToOrganisation] at h
    by_cases he : (buildUpdateData cfg prefs user s).isEmpty = true
    · rw [if_pos he] at h
      obtain rfl : s = r := by simpa using h
      exact ⟨fun _ => ⟨rfl, rfl⟩, fun _ => rfl, fun _ => rfl, fun _ => rfl, fun _ => rfl,
        fun _ _ => rfl, fun _ => rfl, fun _ => rfl, fun _ => rfl, fun _ => rfl,
        fun _ => rfl, fun _ => rfl, fun _ => rfl⟩
    · rw [if_neg he] at h
      obtain rfl :
          applyUpdate s (dropSignatureIfAllDisabled (buildUpdateData cfg prefs user s) s)
            = r := by
        simpa using h
      refine ⟨?_, ?_, ?_, ?_, ?_, ?_, ?_, ?_, ?_, ?_, ?_, ?_, ?_⟩ <;>
        intro hX <;>
        try intro hY
      all_goals
        rcases dropSignature_eq_or (buildUpdateData cfg prefs user s) s with hd | hd <;>
          rw [hd] <;>
          simp [applyUpdate, buildUpdateData, updLogoDefault_eq, updCompanyDefault_eq,
            updDocumentDefaults_eq, updLocaleFallback_eq, updSignatureSettings_eq,
            updCertificateSettings_eq, updEmailSettings_eq, hX]
      all_goals
        simp_all

/-- Witness for C1's amended theorem: a pull sync with an empty remote
config against a fully configured local row changes nothing. -/
theorem C1_pull_diff_amended_witness :
    (⟨true, some "logo", some "Acme", some "de", some "Europe/Berlin", some "dd.MM.yyyy",
       some DocumentVisibility.EVERYONE, true, true, true, true, true, true,
       some "re@acme.example"⟩ : OrganisationGlobalSettings).brandingLogo =
      some "logo"
    ∧ (⟨true, some "logo", some "Acme", some "de", some "Europe/Berlin", some "dd.MM.yyyy",
         some DocumentVisibility.EVERYONE, true, true, true, true, true, true,
         some "re@acme.example"⟩ : OrganisationGlobalSettings).brandingEnabled = true :=
  (C1_pull_diff_amended none none (some ⟨⟨"", none, false⟩⟩)
      ⟨true, some "logo", some "Acme", some "de", some "Europe/Berlin", some "dd.MM.yyyy",
        some DocumentVisibility.EVERYONE, true, true, true, true, true, true,
        some "re@acme.example"⟩
      ⟨true, some "logo", some "Acme", some "de", some "Europe/Berlin", some "dd.MM.yyyy",
        some DocumentVisibility.EVERYONE, true, true, true, true, true, true,
        some "re@acme.example"⟩
      (by decide)).1 (by decide)

/-- C8. For every pull sync where applying the computed diff would
leave all three signature types (typed, uploaded, drawn) disabled, the
three signature fields stay at their pre-call values while the rest of
the update still proceeds: the sync reports success and every
non-signature field gets exactly the value the undropped diff would have
given it. -/
theorem C8_signature_failsoft (cfg : Option DocumensoConfigMeta)
    (prefs : Option CockpitUserPreferences) (user : CockpitCurrentUser)
    (s r : OrganisationGlobalSettings)
    (hT : (buildUpdateData cfg prefs user s).typedSignatureEnabled.getD
        s.typedSignatureEnabled = false)
    (hU : (buildUpdateData cfg prefs user s).uploadSignatureEnabled.getD
        s.uploadSignatureEnabled = false)
    (hD : (buildUpdateData cfg prefs user s).drawSignatureEnabled.getD
        s.drawSignatureEnabled = false)
    (h : (syncCockpitConfigToOrganisation cfg prefs (some user) (some s)).2 = some r) :
    r.typedSignatureEnabled = s.typedSignatureEnabled
    ∧ r.uploadSignatureEnabled = s.uploadSignatureEnabled
    ∧ r.drawSignatureEnabled = s.drawSignatureEnabled
    ∧ (syncCockpitConfigToOrganisation cfg prefs (some user) (some s)).1 = true
    ∧ r.brandingEnabled =
        (applyUpdate s (buildUpdateData cfg prefs user s)).brandingEnabled
    ∧ r.brandingLogo = (applyUpdate s (buildUpdateData cfg prefs user s)).brandingLogo
    ∧ r.brandingCompanyDetails =
        (applyUpdate s (buildUpdateData cfg prefs user s)).brandingCompanyDetails
    ∧ r.documentLanguage =
        (applyUpdate s (buildUpdateData cfg prefs user s)).documentLanguage
    ∧ r.documentTimezone =
        (applyUpdate s (buildUpdateData cfg prefs user s)).documentTimezone
    ∧ r.documentDateFormat =
        (applyUpdate s (buildUpdateData cfg prefs user s)).documentDateFormat
    ∧ r.documentVisibility =
        (applyUpdate s (buildUpdateData cfg prefs user s)).documentVisibility
    ∧ r.includeSenderDetails =
        (applyUpdate s (buildUpdateData cfg prefs user s)).includeSenderDetails
    ∧ r.includeSigningCertificate =
        (applyUpdate s (buildUpdateData cfg prefs user s)).includeSigningCertificate
    ∧ r.includeAuditLog =
        (applyUpdate s (buildUpdateData cfg prefs user s)).includeAuditLog
    ∧ r.emailReplyTo = (applyUpdate s (buildUpdateData cfg prefs user s)).emailReplyTo := by
  have hdrop : dropSignatureIfAllDisabled (buildUpdateData cfg prefs user s) s =
      { buildUpdateData cfg prefs user s with
        typedSignatureEnabled := none, uploadSignatureEnabled := none,
        drawSignatureEnabled := none } := by
    simp only [dropSignatureIfAllDisabled]
    rw [if_pos ⟨by simp [hT], by simp [hU], by simp [hD]⟩]
  simp only [syncCockpitConfigToOrganisation] at h ⊢
  by_cases he : (buildUpdateData cfg prefs user s).isEmpty = true
  · rw [if_pos he] at h ⊢
    obtain rfl : s = r := by simpa using h
    rw [applyUpdate_empty s he]
    exact ⟨rfl, rfl, rfl, rfl, rfl, rfl, rfl, rfl, rfl, rfl, rfl, rfl, rfl, rfl, rfl⟩
  · rw [if_neg he] at h ⊢
    obtain rfl :
        applyUpdate s (dropSignatureIfAllDisabled (buildUpdateData cfg prefs user s) s)
          = r := by
      simpa using h
    rw [hdrop]
    refine ⟨by simp [applyUpdate, hT], by simp [applyUpdate, hU], by simp [applyUpdate, hD],
      rfl, ?_, ?_, ?_, ?_, ?_, ?_, ?_, ?_, ?_, ?_, ?_⟩ <;> simp [applyUpdate]

/-- Witness for C8: a remote config that disables all three signature
types against a local row with all three enabled; the write keeps the
three signature flags `true` and still succeeds. -/
theorem C8_signature_failsoft_witness :
    (syncCockpitConfigToOrganisation
        (some { signatureSettings := some ⟨some false, some false, some false⟩ })
        none (some ⟨⟨"", none, false⟩⟩)
        (some ⟨false, none, none, none, none, none, none,
               true, true, true, true, true, true, none⟩)).1 = true :=
  (C8_signature_failsoft
      (some { signatureSettings := some ⟨some false, some false, some false⟩ })
      none ⟨⟨"", none, false⟩⟩
      ⟨false, none, none, none, none, none, none, true, true, true, true, true, true, none⟩
      ⟨false, none, none, none, none, none, none, true, true, true, true, true, true, none⟩
      (by decide) (by decide) (by decide) (by decide)).2.2.2.1

/-- C10. For every pull sync where the local branding logo is
currently unset and the remote organization profile carries a (truthy)
logo URL, the computed diff contains both the branding logo (set to that
URL) and the branding-enabled flag (set to `true`), and the single
settings update applies both: defaulting the logo also silently enables
branding. -/
theorem C10_logo_default_enables_branding (cfg : Option DocumensoConfigMeta)
    (prefs : Option CockpitUserPreferences) (user : CockpitCurrentUser)
    (s r : OrganisationGlobalSettings)
    (hlogo : truthyS s.brandingLogo = false)
    (horg : truthyS (orgLogoOf user) = true)
    (h : (syncCockpitConfigToOrganisation cfg prefs (some user) (some s)).2 = some r) :
    (buildUpdateData cfg prefs user s).brandingLogo = orgLogoOf user
    ∧ (buildUpdateData cfg prefs user s).brandingEnabled = some true
    ∧ r.brandingLogo = orgLogoOf user
    ∧ r.brandingEnabled = true
    ∧ (syncCockpitConfigToOrganisation cfg prefs (some user) (some s)).1 = true := by
  obtain ⟨l, hl, hlne⟩ := (truthyS_eq_true_iff (orgLogoOf user)).mp horg
  have hbl : (buildUpdateData cfg prefs user s).brandingLogo = orgLogoOf user := by
    simp [buildUpdateData, updLogoDefault_eq, updCompanyDefault_eq, updDocumentDefaults_eq,
      updLocaleFallback_eq, updSignatureSettings_eq, updCertificateSettings_eq,
      updEmailSettings_eq, hlogo, horg]
  have hbe : (buildUpdateData cfg prefs user s).brandingEnabled = some true := by
    simp [buildUpdateData, updLogoDefault_eq, updCompanyDefault_eq, updDocumentDefaults_eq,
      updLocaleFallback_eq, updSignatureSettings_eq, updCertificateSettings_eq,
      updEmailSettings_eq, hlogo, horg]
  have he : (buildUpdateData cfg prefs user s).isEmpty = false := by
    have : (buildUpdateData cfg prefs user s).brandingLogo.isNone = false := by
      rw [hbl, hl]
      rfl
    simp [UpdateData.isEmpty, this]
  simp only [syncCockpitConfigToOrganisation] at h ⊢
  rw [if_neg (by simp [he])] at h ⊢
  obtain rfl :
      applyUpdate s (dropSignatureIfAllDisabled (buildUpdateData cfg prefs user s) s)
        = r := by
    simpa using h
  refine ⟨hbl, hbe, ?_, ?_, rfl⟩ <;>
    rcases dropSignature_eq_or (buildUpdateData cfg prefs user s) s with hd | hd <;>
      rw [hd] <;>
      simp [applyUpdate, hbl, hbe, hl]

/-- Witness for C10: a remote organization with logo URL
`"https://cdn.example/logo.png"` against a local row with no branding
logo; the sync sets the logo and enables branding in the same update. -/
theorem C10_logo_default_enables_branding_witness :
    (⟨true, some "https://cdn.example/logo.png", none, none, none, none, none,
       true, true, true, true, true, true, none⟩ :
        OrganisationGlobalSettings).brandingLogo =
      orgLogoOf ⟨⟨"", some ⟨some "https://cdn.example/logo.png", none⟩, false⟩⟩
    ∧ (⟨true, some "https://cdn.example/logo.png", none, none, none, none, none,
         true, true, true, true, true, true, none⟩ :
          OrganisationGlobalSettings).brandingEnabled = true :=
  let h := C10_logo_default_enables_branding none none
    ⟨⟨"", some ⟨some "https://cdn.example/logo.png", none⟩, false⟩⟩
    ⟨false, none, none, none, none, none, none, true, true, true, true, true, true, none⟩
    ⟨true, some "https://cdn.example/logo.png", none, none, none, none, none,
      true, true, true, true, true, true, none⟩
    (by decide) (by decide) (by decide)
  ⟨h.2.2.1, h.2.2.2.1⟩

/-! ## Recipient Suggestion Aggregator: merge lemmas -/

theorem addSuggestions_nil (st : List String × List RecipientSuggestion) :
    addSuggestions st [] = st := rfl

theorem addSuggestions_cons (st : List String × List RecipientSuggestion)
    (a : RecipientSuggestion) (l : List RecipientSuggestion) :
    addSuggestions st (a :: l) = addSuggestions (addSuggestion st a) l := rfl

theorem seen_subset_addSuggestion (st : List String × List RecipientSuggestion)
    (a : RecipientSuggestion) : st.1 ⊆ (addSuggestion st a).1 := by
  unfold addSuggestion
  split
  · exact List.subset_cons_self _ _
  · exact fun _ h => h

theorem seen_subset_addSuggestions (l : List RecipientSuggestion) :
    ∀ st, st.1 ⊆ (addSuggestions st l).1 := by
  induction l with
  | nil => exact fun st _ h => h
  | cons a xs ih =>
    intro st
    exact (seen_subset_addSuggestion st a).trans (ih (addSuggestion st a))

/-- Every element of the accumulator after a merge loop either was there
before the loop, or comes from the processed list, was unseen at loop
entry, and passed the email check. -/
theorem mem_addSuggestions (l : List RecipientSuggestion) :
    ∀ st x, x ∈ (addSuggestions st l).2 →
      x ∈ st.2 ∨
        (x ∈ l ∧ lowerString x.email ∉ st.1 ∧ isValidEmail x.email = true) := by
  induction l with
  | nil => exact fun st x hx => Or.inl hx
  | cons a xs ih =>
    intro st x hx
    rw [addSuggestions_cons] at hx
    rcases ih (addSuggestion st a) x hx with hx' | ⟨hxl, hns, hval⟩
    · by_cases hc : lowerString a.email ∉ st.1 ∧ isValidEmail a.email = true
      · rw [addSuggestion, if_pos hc] at hx'
        rcases List.mem_append.mp hx' with h | h
        · exact Or.inl h
        · have hxa : x = a := by simpa using h
          subst hxa
          exact Or.inr ⟨List.mem_cons_self _ _, hc.1, hc.2⟩
      · rw [addSuggestion, if_neg hc] at hx'
        exact Or.inl hx'
    · refine Or.inr ⟨List.mem_cons_of_mem _ hxl, ?_, hval⟩
      intro hmem
      exact hns (seen_subset_addSuggestion st a hmem)

/-- After a merge loop, the lower-cased email of every valid element of
the processed list is in the seen-set. -/
theorem covered_addSuggestions (l : List RecipientSuggestion) :
    ∀ st x, x ∈ l → isValidEmail x.email = true →
      lowerString x.email ∈ (addSuggestions st l).1 := by
  induction l with
  | nil =>
    intro st x hx _
    exact absurd hx (List.not_mem_nil x)
  | cons a xs ih =>
    intro st x hx hval
    rw [addSuggestions_cons]
    rcases List.mem_cons.mp hx with rfl | hx'
    · apply seen_subset_addSuggestions xs (addSuggestion st x)
      by_cases hc : lowerString x.email ∉ st.1 ∧ isValidEmail x.email = true
      · rw [addSuggestion, if_pos hc]
        exact List.mem_cons_self _ _
      · rw [addSuggestion, if_neg hc]
        by_contra hns
        exact hc ⟨hns, hval⟩
    · exact ih (addSuggestion st a) x hx' hval

/-- The merge-loop invariant: the seen-set covers the accumulator, the
accumulator's lower-cased emails are pairwise distinct, and every
accumulated suggestion passed the email check. -/
def MergeInv (st : List String × List RecipientSuggestion) : Prop :=
  (∀ x ∈ st.2, lowerString x.email ∈ st.1)
  ∧ (st.2.map (fun x => lowerString x.email)).Nodup
  ∧ (∀ x ∈ st.2, isValidEmail x.email = true)

theorem mergeInv_addSuggestion {st : List String × List RecipientSuggestion}
    (h : MergeInv st) (a : RecipientSuggestion) : MergeInv (addSuggestion st a) := by
  obtain ⟨h1, h2, h3⟩ := h
  by_cases hc : lowerString a.email ∉ st.1 ∧ isValidEmail a.email = true
  · rw [addSuggestion, if_pos hc]
    refine ⟨?_, ?_, ?_⟩
    · intro x hx
      rcases List.mem_append.mp hx with hmem | hmem
      · exact List.mem_cons_of_mem _ (h1 x hmem)
      · have hxa : x = a := by simpa using hmem
        subst hxa
        exact List.mem_cons_self _ _
    · rw [List.map_append]
      refine List.Nodup.append h2 (by simp) ?_
      intro y hy hy'
      rcases List.mem_map.mp hy with ⟨x, hx, rfl⟩
      have hseen : lowerString x.email ∈ st.1 := h1 x hx
      have heq : lowerString x.email = lowerString a.email := by simpa using hy'
      exact hc.1 (heq ▸ hseen)
    · intro x hx
      rcases List.mem_append.mp hx with hmem | hmem
      · exact h3 x hmem
      · have hxa : x = a := by simpa using hmem
        subst hxa
        exact hc.2
  · rw [addSuggestion, if_neg hc]
    exact ⟨h1, h2, h3⟩

theorem mergeInv_addSuggestions (l : List RecipientSuggestion) :
    ∀ st, MergeInv st → MergeInv (addSuggestions st l) := by
  induction l with
  | nil => exact fun st h => h
  | cons a xs ih =>
    intro st h
    exact ih _ (mergeInv_addSuggestion h a)

/-- All three claimed properties of the fully merged (pre-pagination)
list, for arbitrary source lists. -/
theorem merged_all_props (cockpit locals team : List RecipientSuggestion) :
    ((addSuggestions (addSuggestions (addSuggestions ([], []) cockpit) locals) team).2.map
        (fun x => lowerString x.email)).Nodup
    ∧ (∀ x ∈ (addSuggestions (addSuggestions (addSuggestions ([], []) cockpit)
          locals) team).2, isValidEmail x.email = true)
    ∧ (∀ x ∈ (addSuggestions (addSuggestions (addSuggestions ([], []) cockpit)
          locals) team).2, ∀ c ∈ cockpit, isValidEmail c.email = true →
        lowerString c.email = lowerString x.email → x ∈ cockpit) := by
  have hinv : MergeInv (addSuggestions (addSuggestions (addSuggestions ([], []) cockpit)
      locals) team) :=
    mergeInv_addSuggestions _ _ (mergeInv_addSuggestions _ _
      (mergeInv_addSuggestions _ _ ⟨by simp, by simp, by simp⟩))
  refine ⟨hinv.2.1, hinv.2.2, ?_⟩
  intro x hx c hc hcval hceq
  have hcov : lowerString c.email ∈ (addSuggestions ([], []) cockpit).1 :=
    covered_addSuggestions cockpit ([], []) c hc hcval
  have hcov2 : lowerString c.email ∈
      (addSuggestions (addSuggestions ([], []) cockpit) locals).1 :=
    seen_subset_addSuggestions locals _ hcov
  rcases mem_addSuggestions team _ x hx with hx2 | ⟨-, hns, -⟩
  · rcases mem_addSuggestions locals _ x hx2 with hx1 | ⟨-, hns, -⟩
    · rcases mem_addSuggestions cockpit _ x hx1 with hx0 | ⟨hmem, -, -⟩
      · exact absurd hx0 (List.not_mem_nil x)
      · exact hmem
    · exact absurd (hceq ▸ hcov) hns
  · exact absurd (hceq ▸ hcov2) hns

/-- C9. For every suggestion query over any lists of remote,
historical-recipient and team-member results, the merge discards any
email already seen case-insensitively and any syntactically invalid
email, so the returned page contains no two entries with the same
lower-cased email and only entries with valid emails; and any returned
entry whose lower-cased email also occurs (validly) in the remote list
is itself a remote-sourced entry — the remote record wins every
duplicate. -/
theorem C9_suggest_merge_dedup (cockpitSuggestions : List RecipientSuggestion)
    (recipients teamMembers : List LocalRecipient) (teamId take skip : Nat) :
    (((getRecipientSuggestions cockpitSuggestions recipients teamMembers
          teamId take skip).suggestions).map (fun x => lowerString x.email)).Nodup
    ∧ (∀ x ∈ (getRecipientSuggestions cockpitSuggestions recipients teamMembers
          teamId take skip).suggestions, isValidEmail x.email = true)
    ∧ (∀ x ∈ (getRecipientSuggestions cockpitSuggestions recipients teamMembers
          teamId take skip).suggestions,
        ∀ c ∈ cockpitSuggestions, isValidEmail c.email = true →
          lowerString c.email = lowerString x.email → x ∈ cockpitSuggestions) := by
  simp only [getRecipientSuggestions]
  by_cases hcond :
      (addSuggestions (addSuggestions ([], []) cockpitSuggestions)
        (recipients.map localToSuggestion)).2.length < skip + take ∧ teamId ≠ 0
  · rw [if_pos hcond]
    obtain ⟨hnodup, hvalid, hremote⟩ := merged_all_props cockpitSuggestions
      (recipients.map localToSuggestion) (teamMembers.map localToSuggestion)
    have hsub :
        List.Sublist
          (((addSuggestions (addSuggestions (addSuggestions ([], []) cockpitSuggestions)
            (recipients.map localToSuggestion)) (teamMembers.map localToSuggestion)).2.drop
              skip).take take)
          (addSuggestions (addSuggestions (addSuggestions ([], []) cockpitSuggestions)
            (recipients.map localToSuggestion)) (teamMembers.map localToSuggestion)).2 :=
      (List.take_sublist _ _).trans (List.drop_sublist _ _)
    exact ⟨List.Nodup.sublist (hsub.map _) hnodup,
      fun x hx => hvalid x (hsub.subset hx),
      fun x hx => hremote x (hsub.subset hx)⟩
  · rw [if_neg hcond]
    obtain ⟨hnodup, hvalid, hremote⟩ := merged_all_props cockpitSuggestions
      (recipients.map localToSuggestion) []
    have hsub :
        List.Sublist
          (((addSuggestions (addSuggestions ([], []) cockpitSuggestions)
            (recipients.map localToSuggestion)).2.drop skip).take take)
          (addSuggestions (addSuggestions ([], []) cockpitSuggestions)
            (recipients.map localToSuggestion)).2 :=
      (List.take_sublist _ _).trans (List.drop_sublist _ _)
    exact ⟨List.Nodup.sublist (hsub.map _) hnodup,
      fun x hx => hvalid x (hsub.subset hx),
      fun x hx => hremote x (hsub.subset hx)⟩

/-- Witness for C9 at the spec's own example: the remote directory
returns `a@x.com`, local history returns `a@x.com` and `b@x.com`; every
surfaced entry has a valid email, in particular the locally-sourced
`b@x.com` entry. -/
theorem C9_suggest_merge_dedup_witness :
    isValidEmail
      (({ name := some "B", email := "b@x.com" } : RecipientSuggestion)).email = true :=
  (C9_suggest_merge_dedup
      [{ name := some "A", email := "a@x.com", avatarUrl := some "av",
         organizationName := some "Org" }]
      [⟨some "A2", "a@x.com"⟩, ⟨some "B", "b@x.com"⟩] [] 1 10 0).2.1
    { name := some "B", email := "b@x.com" } (by decide)

end Documenso
